import Mathlib

/-!
Verification of the perfinspector diagnostic core.

This file gives a shallow embedding, in Lean 4, of the parts of the
perfinspector repository (a Go program) that the checked claims are about:

* the package classifier (`pkg/locator`, `Classifier.Classify`),
* the stack-frame extractor (`pkg/locator/extractor.go`),
* the call-chain aggregation key (`generateSmartCallChainKey`),
* linear-regression trend analysis (`pkg/analyzer/trends.go`),
* profile-type detection (`pkg/analyzer/grouping.go`),
* heap insights (`analyzer.AnalyzeHeapInsights`),
* finding deduplication (`pkg/rules/engine.go`).

Modelling conventions:

* Go `string` values are Lean `String`s; the byte-level operations of the
  source (`strings.HasPrefix`, `strings.Contains`, substring search) are
  modelled on the underlying character lists.  For valid UTF-8 data the
  byte-level search of the source and the character-level search used here
  agree, because UTF-8 is self-synchronising.
* Go `int`/`int64` become `Int`; Go `float64` arithmetic is modelled by
  exact rational arithmetic (`ℚ`).  Where the source tests a float for
  NaN/±Inf on *input* values, the inputs are modelled by the inductive
  type `FVal` which has explicit `nan` / `inf` / `neginf` constructors;
  NaN/Inf checks on *derived* values cannot fire under exact rational
  arithmetic and are noted in comments where they occur in the source.
* Go `nil` pointers become `Option`; a Go map used as a set becomes a
  `List` with membership; a Go map with unspecified iteration order is
  modelled by a fixed iteration order noted at the definition.
-/

/-! ### String helpers (models of the Go `strings` operations used) -/

/-- Model of `strings.HasPrefix s pre`. -/
def strStartsWith (s pre : String) : Bool :=
  List.isPrefixOf pre.data s.data

/-- Model of `strings.Contains s c` for a single-character pattern `c`. -/
def strContainsChar (s : String) (c : Char) : Bool :=
  s.data.contains c

/-- Model of the substring scan used by `containsString` in
`pkg/rules/engine.go` (and of `strings.Contains` generally): try every
start position in turn. -/
def listContainsSeq (sub : List Char) : List Char → Bool
  | [] => List.isPrefixOf sub []
  | c :: t => List.isPrefixOf sub (c :: t) || listContainsSeq sub t

/-- Model of `containsString s substr` from `pkg/rules/engine.go`
(substring containment; an empty pattern is always contained). -/
def containsString (s sub : String) : Bool :=
  listContainsSeq sub.data s.data

/-- Model of `toLowerString` from `pkg/rules/engine.go`: lower-case only the
ASCII letters `A`–`Z`, leaving every other character unchanged (the Go code
works byte-wise, which on valid UTF-8 is exactly ASCII-only lowering). -/
def asciiLower (c : Char) : Char :=
  if 'A' ≤ c ∧ c ≤ 'Z' then Char.ofNat (c.toNat + 32) else c

/-- Model of `toLowerString` from `pkg/rules/engine.go`. -/
def toLowerString (s : String) : String :=
  String.mk (s.data.map asciiLower)

/-! ### Code categories and the classifier (`pkg/locator`, part_005/part_006) -/

/-- Model of `locator.CodeCategory`. -/
inductive CodeCategory where
  | runtime
  | stdlib
  | thirdParty
  | business
  | unknown
deriving DecidableEq, BEq, Repr

/-- Model of `goStdlibPackages` from the classifier source: the embedded
list of standard-library package names. -/
def goStdlibPackages : List String :=
  ["archive", "archive/tar", "archive/zip", "bufio", "builtin", "bytes",
   "compress", "compress/bzip2", "compress/flate", "compress/gzip",
   "compress/lzw", "compress/zlib", "container", "container/heap",
   "container/list", "container/ring", "context", "crypto", "crypto/aes",
   "crypto/cipher", "crypto/des", "crypto/dsa", "crypto/ecdh",
   "crypto/ecdsa", "crypto/ed25519", "crypto/elliptic", "crypto/hmac",
   "crypto/md5", "crypto/rand", "crypto/rc4", "crypto/rsa", "crypto/sha1",
   "crypto/sha256", "crypto/sha512", "crypto/subtle", "crypto/tls",
   "crypto/x509", "crypto/x509/pkix", "database", "database/sql",
   "database/sql/driver", "debug", "debug/buildinfo", "debug/dwarf",
   "debug/elf", "debug/gosym", "debug/macho", "debug/pe", "debug/plan9obj",
   "embed", "encoding", "encoding/ascii85", "encoding/asn1",
   "encoding/base32", "encoding/base64", "encoding/binary", "encoding/csv",
   "encoding/gob", "encoding/hex", "encoding/json", "encoding/pem",
   "encoding/xml", "errors", "expvar", "flag", "fmt", "go", "go/ast",
   "go/build", "go/build/constraint", "go/constant", "go/doc",
   "go/doc/comment", "go/format", "go/importer", "go/parser", "go/printer",
   "go/scanner", "go/token", "go/types", "hash", "hash/adler32",
   "hash/crc32", "hash/crc64", "hash/fnv", "hash/maphash", "html",
   "html/template", "image", "image/color", "image/color/palette",
   "image/draw", "image/gif", "image/jpeg", "image/png", "index",
   "index/suffixarray", "io", "io/fs", "io/ioutil", "log", "log/slog",
   "log/syslog", "maps", "math", "math/big", "math/bits", "math/cmplx",
   "math/rand", "mime", "mime/multipart", "mime/quotedprintable", "net",
   "net/http", "net/http/cgi", "net/http/cookiejar", "net/http/fcgi",
   "net/http/httptest", "net/http/httptrace", "net/http/httputil",
   "net/http/pprof", "net/mail", "net/netip", "net/rpc", "net/rpc/jsonrpc",
   "net/smtp", "net/textproto", "net/url", "os", "os/exec", "os/signal",
   "os/user", "path", "path/filepath", "plugin", "reflect", "regexp",
   "regexp/syntax", "slices", "sort", "strconv", "strings", "sync",
   "sync/atomic", "syscall", "testing", "testing/fstest", "testing/iotest",
   "testing/quick", "text", "text/scanner", "text/tabwriter",
   "text/template", "text/template/parse", "time", "time/tzdata",
   "unicode", "unicode/utf16", "unicode/utf8", "unsafe", "internal"]

/-- Model of `locator.Classifier`: the module name, the configured extra
third-party prefixes, and the preloaded standard-library set (a Go
`map[string]bool` used as a set, modelled by the list it is filled from). -/
structure Classifier where
  moduleName : String
  thirdPartyPrefixes : List String
  stdlibPackages : List String
deriving Repr

/-- Model of `NewClassifier`: the standard-library set is initialised from
`goStdlibPackages`. -/
def NewClassifier (moduleName : String) (thirdPartyPrefixes : List String) :
    Classifier :=
  { moduleName := moduleName
    thirdPartyPrefixes := thirdPartyPrefixes
    stdlibPackages := goStdlibPackages }

/-- Model of `Classifier.isRuntimePackage`. -/
def isRuntimePackage (packageName : String) : Bool :=
  packageName = "runtime" || strStartsWith packageName "runtime/"

/-- Model of the top-level-segment computation inside `isStdlibPackage`:
`topLevel` is the part before the first `/` when that `/` occurs at a
positive index, and the whole name otherwise. -/
def topLevelSegment (packageName : String) : String :=
  let pre := packageName.data.takeWhile (fun c => c ≠ '/')
  if pre.length = 0 ∨ pre.length = packageName.data.length then packageName
  else String.mk pre

/-- Model of `Classifier.isStdlibPackage`: exact membership in the stdlib
set, or a dot-free top-level segment in the set, or the `golang.org/x/`
extended-stdlib prefix. -/
def isStdlibPackage (c : Classifier) (packageName : String) : Bool :=
  if c.stdlibPackages.contains packageName then true
  else if c.stdlibPackages.contains (topLevelSegment packageName) &&
          !(strContainsChar (topLevelSegment packageName) '.') then true
  else strStartsWith packageName "golang.org/x/"

/-- Model of `Classifier.isBusinessPackage`: `main`, slash-free
non-runtime/non-stdlib names, or names under the configured module. -/
def isBusinessPackage (c : Classifier) (packageName : String) : Bool :=
  if packageName = "main" || strStartsWith packageName "main." then true
  else if !(strContainsChar packageName '/') &&
          !(isRuntimePackage packageName) &&
          !(isStdlibPackage c packageName) then true
  else if c.moduleName ≠ "" then
    packageName = c.moduleName ||
      strStartsWith packageName (c.moduleName ++ "/")
  else false

/-- Model of `thirdPartyDomains` from `isThirdPartyPackage`. -/
def thirdPartyDomains : List String :=
  ["github.com/", "gitlab.com/", "bitbucket.org/", "gopkg.in/",
   "go.uber.org/", "google.golang.org/", "cloud.google.com/", "k8s.io/",
   "sigs.k8s.io/"]

/-- Model of `Classifier.isThirdPartyPackage`.  In the source the loop over
`thirdPartyDomains` returns `false` as soon as the first matching domain is
found while the package is under the configured module; since the module
test does not depend on the domain, the loop is equivalent to the
conditional below. -/
def isThirdPartyPackage (c : Classifier) (packageName : String) : Bool :=
  if c.thirdPartyPrefixes.any (fun pre => strStartsWith packageName pre) then
    true
  else if thirdPartyDomains.any (fun d => strStartsWith packageName d) then
    !(c.moduleName ≠ "" && strStartsWith packageName c.moduleName)
  else false

/-- Model of `Classifier.Classify`: strict priority
runtime → stdlib → business → third-party → unknown, with empty input
mapped to unknown. -/
def Classifier.Classify (c : Classifier) (packageName : String) :
    CodeCategory :=
  if packageName = "" then CodeCategory.unknown
  else if isRuntimePackage packageName then CodeCategory.runtime
  else if isStdlibPackage c packageName then CodeCategory.stdlib
  else if isBusinessPackage c packageName then CodeCategory.business
  else if isThirdPartyPackage c packageName then CodeCategory.thirdParty
  else CodeCategory.unknown

/-! ### Claim C5 -/

/-- Helper: appending strings appends their character data. -/
theorem strData_append (s t : String) : (s ++ t).data = s.data ++ t.data := by
  cases s; cases t; rfl

/-- Helper: a string with a non-empty prefix is non-empty. -/
theorem strStartsWith_ne_empty (p m : String) (hm : m ≠ "")
    (h : strStartsWith p m = true) : p ≠ "" := by
  intro hp
  subst hp
  unfold strStartsWith at h
  cases hM : m.data with
  | nil =>
    apply hm
    cases m
    simp_all
  | cons c t =>
    rw [hM] at h
    simp [List.isPrefixOf] at h

/-- C5: a package equal to the configured non-empty module prefix, or under
it (`<prefix>/…`), classifies as business whenever the higher-priority
runtime and stdlib rules do not claim it — regardless of any hosting-domain
prefix it may also carry. -/
theorem classify_module_prefix_business (c : Classifier) (p : String)
    (hmod : c.moduleName ≠ "")
    (hunder : p = c.moduleName ∨ strStartsWith p (c.moduleName ++ "/") = true)
    (hrt : isRuntimePackage p = false)
    (hstd : isStdlibPackage c p = false) :
    Classifier.Classify c p = CodeCategory.business := by
  have hpne : p ≠ "" := by
    rcases hunder with h | h
    · subst h; exact hmod
    · refine strStartsWith_ne_empty p (c.moduleName ++ "/") ?_ h
      intro habs
      have hd : c.moduleName.data ++ "/".data = [] := by
        rw [← strData_append, habs]
      simp at hd
  have hbus : isBusinessPackage c p = true := by
    rcases hunder with h | h <;> simp [isBusinessPackage, hmod, h]
  simp [Classifier.Classify, hpne, hrt, hstd, hbus]

/-- C5 witness: the module `github.com/myapp` claims
`github.com/myapp/pkg` as business code even though the package also
carries the `github.com/` hosting prefix. -/
theorem classify_module_prefix_business_witness :
    Classifier.Classify (NewClassifier "github.com/myapp" [])
      "github.com/myapp/pkg" = CodeCategory.business := by
  apply classify_module_prefix_business
  · decide
  · right; decide
  · decide
  · decide

/-! ### Stack frames and the extractor (`pkg/locator/extractor.go`) -/

/-- Model of the fields of `profile.Function` consulted by the extractor
(`ID` and `SystemName` are never read and are omitted). -/
structure PprofFunction where
  name : String
  filename : String
deriving DecidableEq, Repr

/-- Model of `profile.Line`. -/
structure PprofLine where
  function : Option PprofFunction
  line : Int
deriving DecidableEq, Repr

/-- Model of the fields of `profile.Location` consulted by the extractor
(only the `Line` slice is read). -/
structure PprofLocation where
  line : List PprofLine
deriving DecidableEq, Repr

/-- Model of `locator.StackFrame`. -/
structure StackFrame where
  functionName : String
  shortName : String
  packageName : String
  filePath : String
  lineNumber : Int
  category : CodeCategory
  flat : Int
  flatPct : ℚ
  cum : Int
  cumPct : ℚ
deriving DecidableEq, Repr

/-- Model of the split at the last `/`: returns the part up to and
including the last slash, and the part after it (the whole string goes to
the second component when there is no slash). -/
def afterLastSlash (cs : List Char) : List Char × List Char :=
  let suffixRev := cs.reverse.takeWhile (fun c => c ≠ '/')
  (cs.take (cs.length - suffixRev.length), suffixRev.reverse)

/-- Model of `ExtractPackageName`: the part of the function name before the
first `.` that occurs after the last `/`; the whole name when there is no
such dot. -/
def ExtractPackageName (functionName : String) : String :=
  if functionName = "" then ""
  else
    let parts := afterLastSlash functionName.data
    let beforeDot := parts.2.takeWhile (fun c => c ≠ '.')
    if beforeDot.length = parts.2.length then functionName
    else String.mk (parts.1 ++ beforeDot)

/-- Model of `ExtractShortName`: the part after the first `.` that occurs
after the last `/`; the whole name when there is no such dot. -/
def ExtractShortName (functionName : String) : String :=
  if functionName = "" then ""
  else
    let parts := afterLastSlash functionName.data
    let beforeDot := parts.2.takeWhile (fun c => c ≠ '.')
    if beforeDot.length = parts.2.length then functionName
    else String.mk (parts.2.drop (beforeDot.length + 1))

/-- Model of the frame literal that `ExtractStackFrame` starts from (and
returns unchanged when no function can be resolved).  Note that the source
initialises `PackageName` to the empty string while the other string
fields start as the sentinel `"unknown"`. -/
def unknownFrame : StackFrame :=
  { functionName := "unknown"
    shortName := "unknown"
    packageName := ""
    filePath := "unknown"
    lineNumber := 0
    category := CodeCategory.unknown
    flat := 0
    flatPct := 0
    cum := 0
    cumPct := 0 }

/-- Model of the line-resolution step at the top of `ExtractStackFrame`:
when the `line` argument is nil, fall back to the location's first line
entry if there is one. -/
def resolveLine (loc : Option PprofLocation) (line : Option PprofLine) :
    Option PprofLine :=
  match line with
  | some l => some l
  | none =>
    match loc with
    | some l => l.line.head?
    | none => none

/-- Model of `Extractor.ExtractStackFrame`.  The source guards the final
classification with a nil check on the classifier; the classifier is
always supplied here. -/
def ExtractStackFrame (c : Classifier) (loc : Option PprofLocation)
    (line : Option PprofLine) : StackFrame :=
  match resolveLine loc line with
  | none => unknownFrame
  | some l =>
    match l.function with
    | none => unknownFrame
    | some fn =>
      let f1 :=
        if fn.name ≠ "" then
          { unknownFrame with
              functionName := fn.name
              shortName := ExtractShortName fn.name
              packageName := ExtractPackageName fn.name }
        else unknownFrame
      let f2 := if fn.filename ≠ "" then { f1 with filePath := fn.filename }
                else f1
      let f3 := if l.line > 0 then { f2 with lineNumber := l.line } else f2
      { f3 with category := Classifier.Classify c f3.packageName }

/-! ### Claim C4 -/

/-- C4 counterexample: when no function can be resolved the returned frame
has `PackageName = ""`, not the sentinel `"unknown"` claimed for every
string field.  The input satisfies the claim's premise (the line argument
is nil and there is no location at all). -/
theorem extract_frame_packageName_not_unknown :
    (ExtractStackFrame (NewClassifier "" []) none none).packageName = "" ∧
    (ExtractStackFrame (NewClassifier "" []) none none).packageName ≠
      "unknown" := by
  constructor
  · rfl
  · decide

/-- C4 (amended): when no function can be resolved — the effective line
(argument, or the location's first line entry) is absent or carries no
function — the returned frame has `FunctionName`, `ShortName` and
`FilePath` equal to `"unknown"`, `PackageName` equal to the empty string,
all numeric fields `0`, and category `unknown`. -/
theorem extract_frame_unresolved_default (c : Classifier)
    (loc : Option PprofLocation) (line : Option PprofLine)
    (h : Option.bind (resolveLine loc line) PprofLine.function = none) :
    ExtractStackFrame c loc line =
      { functionName := "unknown"
        shortName := "unknown"
        packageName := ""
        filePath := "unknown"
        lineNumber := 0
        category := CodeCategory.unknown
        flat := 0
        flatPct := 0
        cum := 0
        cumPct := 0 } := by
  unfold ExtractStackFrame
  cases hr : resolveLine loc line with
  | none => rfl
  | some l =>
    have hf : l.function = none := by
      rw [hr] at h
      simpa using h
    simp [hf, unknownFrame]

/-- C4 (amended) witness: the concrete no-location, no-line call. -/
theorem extract_frame_unresolved_default_witness :
    ExtractStackFrame (NewClassifier "" []) none none =
      { functionName := "unknown"
        shortName := "unknown"
        packageName := ""
        filePath := "unknown"
        lineNumber := 0
        category := CodeCategory.unknown
        flat := 0
        flatPct := 0
        cum := 0
        cumPct := 0 } :=
  extract_frame_unresolved_default (NewClassifier "" []) none none rfl

/-! ### Call-chain aggregation keys (`pkg/locator`, part_007) -/

/-- Helper: string append is associative. -/
theorem strAppend_assoc (a b c : String) : a ++ b ++ c = a ++ (b ++ c) := by
  cases a; cases b; cases c
  show String.mk _ = String.mk _
  rw [List.append_assoc]

/-- Helper: the empty string is a right identity for append. -/
theorem strAppend_empty (s : String) : s ++ "" = s := by
  cases s
  show String.mk _ = String.mk _
  rw [List.append_nil]

/-- Model of the key-building loop of `generateCallChainKey` and
`generateSmartCallChainKey`: the first name is written as-is, each later
name is preceded by `|`. -/
def joinPipe : List String → String
  | [] => ""
  | x :: xs => List.foldl (fun acc fn => acc ++ "|" ++ fn) x xs

/-- Specification-side join: the elements separated by `sep` (the words of
the claim, written as a direct recursion). -/
def joinedBy (sep : String) : List String → String
  | [] => ""
  | [x] => x
  | x :: y :: xs => x ++ sep ++ joinedBy sep (y :: xs)

/-- Helper for relating the loop to `joinedBy`: the separator-prefixed tail
of a join. -/
def joinTail (sep : String) : List String → String
  | [] => ""
  | y :: ys => sep ++ y ++ joinTail sep ys

theorem foldl_joinPipe (xs : List String) :
    ∀ acc : String,
      List.foldl (fun acc fn => acc ++ "|" ++ fn) acc xs =
        acc ++ joinTail "|" xs := by
  induction xs with
  | nil => intro acc; simp [joinTail, strAppend_empty]
  | cons y ys ih =>
    intro acc
    simp only [List.foldl, joinTail]
    rw [ih (acc ++ "|" ++ y), strAppend_assoc, strAppend_assoc,
      strAppend_assoc]

theorem joinedBy_eq_joinTail (x : String) (xs : List String) :
    joinedBy "|" (x :: xs) = x ++ joinTail "|" xs := by
  induction xs generalizing x with
  | nil => simp [joinedBy, joinTail, strAppend_empty]
  | cons y ys ih =>
    show x ++ "|" ++ joinedBy "|" (y :: ys) = _
    rw [ih y, joinTail, strAppend_assoc, strAppend_assoc]

/-- The key-building loop produces exactly the `|`-join of the names. -/
theorem joinPipe_eq_joinedBy (l : List String) :
    joinPipe l = joinedBy "|" l := by
  cases l with
  | nil => rfl
  | cons x xs =>
    show List.foldl _ x xs = _
    rw [foldl_joinPipe xs x, joinedBy_eq_joinTail]

/-- Model of `generateCallChainKey` (the legacy full-stack key, kept by the
source next to the smart key). -/
def generateCallChainKey (frames : List StackFrame) : String :=
  if frames = [] then ""
  else joinPipe (frames.map (fun f => f.functionName))

/-- Model of `generateSmartCallChainKey`: aggregate by the business frames
when any exist, otherwise by the first `min 5 n` frames of the chain. -/
def generateSmartCallChainKey (frames : List StackFrame) : String :=
  if frames = [] then ""
  else
    let businessNames :=
      (frames.filter (fun f => f.category == CodeCategory.business)).map
        (fun f => f.functionName)
    if businessNames ≠ [] then "business:" ++ joinPipe businessNames
    else
      let maxFrames := min 5 frames.length
      "system:" ++ joinPipe ((frames.take maxFrames).map
        (fun f => f.functionName))

/-- Model of `locator.CallChain`.  The Go `map[CodeCategory]int` breakdown
is modelled as an association list; the fields other than `Frames`,
`TotalValue`, `TotalPct` and `SampleCount` are carried through aggregation
unchanged. -/
structure CallChain where
  frames : List StackFrame
  totalValue : Int
  totalPct : ℚ
  sampleCount : Int
  categoryBreakdown : List (CodeCategory × Int)
  boundaryPoints : List Int
deriving DecidableEq, Repr

/-- Helper modelling one step of `AggregateCallChains`: merge the chain
into the entry with the same key, or append a fresh entry. -/
def aggUpdate (m : List (String × CallChain)) (key : String)
    (chain : CallChain) : List (String × CallChain) :=
  match m with
  | [] => [(key, chain)]
  | (k, ex) :: rest =>
    if k = key then
      (k, { ex with
              totalValue := ex.totalValue + chain.totalValue
              totalPct := ex.totalPct + chain.totalPct
              sampleCount := ex.sampleCount + chain.sampleCount }) :: rest
    else (k, ex) :: aggUpdate rest key chain

/-- Model of `PathAnalyzer.AggregateCallChains` (part_007, the current
version): chains are keyed by `generateSmartCallChainKey` of their frames;
matching chains have `TotalValue`, `TotalPct` and `SampleCount` summed.
The Go result is read out of a map whose iteration order is unspecified;
this model fixes first-insertion order. -/
def AggregateCallChains (chains : List CallChain) : List CallChain :=
  if chains = [] then []
  else
    (chains.foldl
      (fun m chain =>
        aggUpdate m (generateSmartCallChainKey chain.frames) chain)
      []).map (fun kv => kv.2)

/-! ### Claim C1 -/

/-- C1: for a non-empty chain the aggregation key is `business:` followed
by the `|`-join of the business frames' full function names when at least
one business frame exists, and otherwise `system:` followed by the
`|`-join of the function names of the first `min 5 n` frames. -/
theorem smart_key_spec (frames : List StackFrame) (h : frames ≠ []) :
    ((frames.filter (fun f => f.category == CodeCategory.business)).map
        (fun f => f.functionName) ≠ [] →
      generateSmartCallChainKey frames =
        "business:" ++ joinedBy "|"
          ((frames.filter (fun f => f.category == CodeCategory.business)).map
            (fun f => f.functionName))) ∧
    ((frames.filter (fun f => f.category == CodeCategory.business)).map
        (fun f => f.functionName) = [] →
      generateSmartCallChainKey frames =
        "system:" ++ joinedBy "|"
          ((frames.take (min 5 frames.length)).map
            (fun f => f.functionName))) := by
  constructor
  · intro hb
    simp only [generateSmartCallChainKey, if_neg h, if_pos hb]
    rw [joinPipe_eq_joinedBy]
  · intro hb
    simp only [generateSmartCallChainKey, if_neg h]
    rw [if_neg (by simp [hb]), joinPipe_eq_joinedBy]

/-- Concrete business frame used in witnesses. -/
def frameBusiness : StackFrame :=
  { functionName := "main.main"
    shortName := "main"
    packageName := "main"
    filePath := "main.go"
    lineNumber := 10
    category := CodeCategory.business
    flat := 0
    flatPct := 0
    cum := 0
    cumPct := 0 }

/-- Concrete runtime frame used in witnesses. -/
def frameRuntime : StackFrame :=
  { functionName := "runtime.mallocgc"
    shortName := "mallocgc"
    packageName := "runtime"
    filePath := "runtime/malloc.go"
    lineNumber := 1234
    category := CodeCategory.runtime
    flat := 0
    flatPct := 0
    cum := 0
    cumPct := 0 }

/-- C1 witness: a chain with one business and one runtime frame aggregates
under the key built from the business frame alone. -/
theorem smart_key_spec_witness :
    generateSmartCallChainKey [frameBusiness, frameRuntime] =
      "business:main.main" := by
  have h :=
    (smart_key_spec [frameBusiness, frameRuntime] (by decide)).1 (by decide)
  rw [h]
  decide

/-! ### Trend analysis (`pkg/analyzer/trends.go`) -/

/-- Model of a Go `float64` input value: either a finite number (modelled
exactly as a rational) or one of the non-finite values that
`math.IsNaN` / `math.IsInf` detect. -/
inductive FVal where
  | finite (q : ℚ)
  | nan
  | inf
  | neginf
deriving DecidableEq, Repr

/-- Whether the value is neither NaN nor ±Inf. -/
def FVal.isFinite : FVal → Bool
  | FVal.finite _ => true
  | _ => false

/-- The rational carried by a finite value (non-finite inputs are rejected
by `LinearRegression` before any arithmetic happens, so the default is
never consulted). -/
def FVal.toRat : FVal → ℚ
  | FVal.finite q => q
  | _ => 0

/-- Model of the first accumulation loop of `LinearRegression`: running
`(sumX, sumY, sumXY, sumX2)` with `x = i` for the element at index `i`. -/
def regSumsGo (i : ℕ) (acc : ℚ × ℚ × ℚ × ℚ) : List ℚ → ℚ × ℚ × ℚ × ℚ
  | [] => acc
  | y :: ys =>
    regSumsGo (i + 1)
      (acc.1 + i, acc.2.1 + y, acc.2.2.1 + i * y, acc.2.2.2 + i * i) ys

/-- Model of the second accumulation loop of `LinearRegression`: running
`(ssRes, ssTot)` with `predicted = slope*i + intercept`. -/
def ssGo (slope intercept meanY : ℚ) (i : ℕ) (acc : ℚ × ℚ) :
    List ℚ → ℚ × ℚ
  | [] => acc
  | y :: ys =>
    ssGo slope intercept meanY (i + 1)
      (acc.1 + (y - (slope * i + intercept)) * (y - (slope * i + intercept)),
       acc.2 + (y - meanY) * (y - meanY)) ys

/-- Arithmetic body of `LinearRegression`, applied once the length and
finiteness guards have passed.  The source's `IsNaN`/`IsInf` checks on
`meanY`, `slope`, `intercept`, each `predicted`, `ssRes`/`ssTot` and `r2`
cannot fire under exact rational arithmetic and are therefore not
represented; the final clamp `math.Max(0, math.Min(1, r2))` is. -/
def linRegCore (ys : List ℚ) : ℚ × ℚ :=
  let n : ℚ := (ys.length : ℚ)
  let s := regSumsGo 0 (0, 0, 0, 0) ys
  let meanX := s.1 / n
  let meanY := s.2.1 / n
  let numerator := s.2.2.1 - n * meanX * meanY
  let denominator := s.2.2.2 - n * meanX * meanX
  if denominator = 0 then (0, 0)
  else
    let slope := numerator / denominator
    let intercept := meanY - slope * meanX
    let ss := ssGo slope intercept meanY 0 (0, 0) ys
    let r2raw := if ss.2 = 0 then 1 else 1 - ss.1 / ss.2
    (slope, max 0 (min 1 r2raw))

/-- Model of `analyzer.LinearRegression`: fewer than two points, or any
NaN/±Inf input, short-circuits to `(0, 0)`; otherwise least squares with
`x = 0..n-1` and clamped R². -/
def LinearRegression (values : List FVal) : ℚ × ℚ :=
  if values.length < 2 then (0, 0)
  else if values.any (fun v => !(FVal.isFinite v)) then (0, 0)
  else linRegCore (values.map FVal.toRat)

/-- Model of `getDirection` (threshold 0.01, taken exactly). -/
def getDirection (slope : ℚ) : String :=
  if slope > 1 / 100 then "increasing"
  else if slope < -(1 / 100) then "decreasing"
  else "stable"

/-- Model of `analyzer.FunctionStat`. -/
structure FunctionStat where
  name : String
  flat : Int
  flatPct : ℚ
  cum : Int
  cumPct : ℚ
deriving DecidableEq, Repr

/-- Model of `analyzer.ProfileMetrics`.  `Duration`, `NumLocations`,
`NumFunctions` and `CPUTime` are never consulted by the embedded
operations and are omitted. -/
structure ProfileMetrics where
  totalSamples : Int
  totalValue : Int
  allocObjects : Int
  allocSpace : Int
  inuseObjects : Int
  inuseSpace : Int
  goroutineCount : Int
  topFunctions : List FunctionStat
  topAllocFunctions : List FunctionStat
deriving DecidableEq, Repr

/-- Model of `analyzer.ProfileFile` (the decoded profile handle and file
size are not consulted by trend analysis and are omitted). -/
structure ProfileFile where
  path : String
  timeNanos : Int
  metrics : Option ProfileMetrics
deriving DecidableEq, Repr

/-- Model of `analyzer.ProfileGroup`. -/
structure ProfileGroup where
  type : String
  files : List ProfileFile
deriving DecidableEq, Repr

/-- Model of `analyzer.TrendMetrics`. -/
structure TrendMetrics where
  slope : ℚ
  r2 : ℚ
  direction : String
deriving DecidableEq, Repr

/-- Model of `analyzer.GroupTrends`. -/
structure GroupTrends where
  heapInuse : Option TrendMetrics
  goroutineCount : Option TrendMetrics
deriving DecidableEq, Repr

/-- Model of `analyzer.CalculateTrends`: `nil` for groups with fewer than
three files; otherwise a `GroupTrends` whose heap (resp. goroutine) trend
is fitted to the `InuseSpace` (resp. `GoroutineCount`) series of the files
that carry metrics. -/
def CalculateTrends (group : ProfileGroup) : Option GroupTrends :=
  if group.files.length < 3 then none
  else if group.type = "heap" then
    let heapValues := (group.files.filterMap (fun f => f.metrics)).map
      (fun m => FVal.finite (m.inuseSpace : ℚ))
    if 3 ≤ heapValues.length then
      let sr := LinearRegression heapValues
      some { heapInuse := some
               { slope := sr.1, r2 := sr.2, direction := getDirection sr.1 }
             goroutineCount := none }
    else some { heapInuse := none, goroutineCount := none }
  else if group.type = "goroutine" then
    let gValues := (group.files.filterMap (fun f => f.metrics)).map
      (fun m => FVal.finite (m.goroutineCount : ℚ))
    if 3 ≤ gValues.length then
      let sr := LinearRegression gValues
      some { heapInuse := none
             goroutineCount := some
               { slope := sr.1, r2 := sr.2, direction := getDirection sr.1 } }
    else some { heapInuse := none, goroutineCount := none }
  else some { heapInuse := none, goroutineCount := none }

/-! ### Claim C8 -/

/-- C8: any NaN or ±Inf among the inputs makes `LinearRegression` return
slope 0 and R² 0 (for short inputs the length guard returns the same
pair). -/
theorem linreg_nonfinite_zero (values : List FVal)
    (h : ∃ v ∈ values, FVal.isFinite v = false) :
    LinearRegression values = (0, 0) := by
  rcases h with ⟨v, hv, hf⟩
  have hany : values.any (fun v => !(FVal.isFinite v)) = true :=
    List.any_eq_true.mpr ⟨v, hv, by simp [hf]⟩
  unfold LinearRegression
  simp [hany]

/-- C8 witness: a series containing NaN. -/
theorem linreg_nonfinite_zero_witness :
    LinearRegression [FVal.nan, FVal.finite 1, FVal.finite 2] = (0, 0) :=
  linreg_nonfinite_zero _ ⟨FVal.nan, by decide, rfl⟩

/-! ### Claim C7 -/

/-- Helper: the R² produced by the arithmetic body is always clamped into
the unit interval. -/
theorem linRegCore_r2_mem (ys : List ℚ) :
    0 ≤ (linRegCore ys).2 ∧ (linRegCore ys).2 ≤ 1 := by
  unfold linRegCore
  dsimp only
  split
  · norm_num
  · constructor
    · exact le_max_left 0 _
    · exact max_le (by norm_num) (min_le_left 1 _)

/-- Helper: R² of `LinearRegression` lies in the unit interval for every
input whatsoever (the short-circuit branches return 0). -/
theorem linreg_r2_unit_all (values : List FVal) :
    0 ≤ (LinearRegression values).2 ∧ (LinearRegression values).2 ≤ 1 := by
  unfold LinearRegression
  split
  · norm_num
  · split
    · norm_num
    · exact linRegCore_r2_mem _

/-- C7: for every series of length at least 2 with only finite values, the
returned R² satisfies `0 ≤ R² ≤ 1`. -/
theorem linreg_r2_in_unit_interval (values : List FVal)
    (_h2 : 2 ≤ values.length)
    (_hf : ∀ v ∈ values, FVal.isFinite v = true) :
    0 ≤ (LinearRegression values).2 ∧ (LinearRegression values).2 ≤ 1 :=
  linreg_r2_unit_all values

/-- C7 witness: a concrete two-point series. -/
theorem linreg_r2_in_unit_interval_witness :
    0 ≤ (LinearRegression [FVal.finite 0, FVal.finite 10]).2 ∧
    (LinearRegression [FVal.finite 0, FVal.finite 10]).2 ≤ 1 :=
  linreg_r2_in_unit_interval _ (by decide) (by decide)

/-! ### Claim C9 -/

/-- C9: a group holding fewer than three files yields no trends at all. -/
theorem calculateTrends_under_three (group : ProfileGroup)
    (h : group.files.length < 3) : CalculateTrends group = none := by
  unfold CalculateTrends
  rw [if_pos h]

/-- Concrete two-file heap group used as the C9 witness. -/
def twoFileHeapGroup : ProfileGroup :=
  { type := "heap"
    files :=
      [{ path := "heap1.pprof", timeNanos := 0, metrics := none },
       { path := "heap2.pprof", timeNanos := 60, metrics := none }] }

/-- C9 witness: two heap profiles produce no trends. -/
theorem calculateTrends_under_three_witness :
    CalculateTrends twoFileHeapGroup = none :=
  calculateTrends_under_three twoFileHeapGroup (by decide)

/-! ### Claim C6 -/

/-- Helper: closed form of the index/value sums for a constant series. -/
theorem regSumsGo_replicate (q : ℚ) :
    ∀ (n i : ℕ) (a b c d : ℚ),
      regSumsGo i (a, b, c, d) (List.replicate n q) =
        (a + ((n : ℚ) * i + (n : ℚ) * ((n : ℚ) - 1) / 2),
         b + (n : ℚ) * q,
         c + q * ((n : ℚ) * i + (n : ℚ) * ((n : ℚ) - 1) / 2),
         d + ((n : ℚ) * i * i + (i : ℚ) * (n : ℚ) * ((n : ℚ) - 1) +
              (n : ℚ) * ((n : ℚ) - 1) * (2 * (n : ℚ) - 1) / 6)) := by
  intro n
  induction n with
  | zero =>
    intro i a b c d
    simp only [List.replicate, regSumsGo, Prod.mk.injEq]
    push_cast
    refine ⟨by ring, by ring, by ring, by ring⟩
  | succ n ih =>
    intro i a b c d
    rw [List.replicate_succ]
    show regSumsGo (i + 1)
        (a + i, b + q, c + i * q, d + i * i) (List.replicate n q) = _
    rw [ih (i + 1)]
    simp only [Prod.mk.injEq]
    push_cast
    refine ⟨by ring, by ring, by ring, by ring⟩

/-- Helper: the sums at start index 0 in the form used by `linRegCore`. -/
theorem regSums_replicate (n : ℕ) (q : ℚ) :
    regSumsGo 0 (0, 0, 0, 0) (List.replicate n q) =
      ((n : ℚ) * ((n : ℚ) - 1) / 2,
       (n : ℚ) * q,
       q * ((n : ℚ) * ((n : ℚ) - 1) / 2),
       (n : ℚ) * ((n : ℚ) - 1) * (2 * (n : ℚ) - 1) / 6) := by
  rw [regSumsGo_replicate q n 0 0 0 0 0]
  simp only [Prod.mk.injEq]
  push_cast
  refine ⟨by ring, by ring, by ring, by ring⟩

/-- Helper: for a constant series the residual loop with slope 0 and
intercept equal to the constant accumulates nothing. -/
theorem ssGo_replicate (q : ℚ) :
    ∀ (n i : ℕ) (r t : ℚ),
      ssGo 0 q q i (r, t) (List.replicate n q) = (r, t) := by
  intro n
  induction n with
  | zero => intro i r t; simp [List.replicate, ssGo]
  | succ n ih =>
    intro i r t
    rw [List.replicate_succ]
    show ssGo 0 q q (i + 1)
        (r + (q - (0 * (i : ℚ) + q)) * (q - (0 * (i : ℚ) + q)),
         t + (q - q) * (q - q)) (List.replicate n q) = _
    have h1 : r + (q - (0 * (i : ℚ) + q)) * (q - (0 * (i : ℚ) + q)) = r := by
      ring
    have h2 : t + (q - q) * (q - q) = t := by ring
    rw [h1, h2, ih (i + 1)]

/-- Helper: the arithmetic body on a constant series of length at least 2
gives slope 0 and R² 1 (the x-variance denominator is nonzero, the
numerator vanishes, and the residual sums are both 0, hitting the
`ssTot = 0` branch that defines R² as 1). -/
theorem linRegCore_replicate (n : ℕ) (q : ℚ) (h2 : 2 ≤ n) :
    linRegCore (List.replicate n q) = (0, 1) := by
  have h2q : (2 : ℚ) ≤ (n : ℚ) := by exact_mod_cast h2
  have h1 : (0 : ℚ) < (n : ℚ) := by linarith
  have hn : ((n : ℚ)) ≠ 0 := ne_of_gt h1
  unfold linRegCore
  rw [List.length_replicate, regSums_replicate]
  dsimp only
  set nn : ℚ := (n : ℚ) with hnn
  have hden : nn * (nn - 1) * (2 * nn - 1) / 6 -
      nn * (nn * (nn - 1) / 2 / nn) * (nn * (nn - 1) / 2 / nn) =
      nn * (nn - 1) * (nn + 1) / 12 := by
    field_simp
    ring
  have hdne : nn * (nn - 1) * (nn + 1) / 12 ≠ 0 := by
    have hg : (0 : ℚ) < nn - 1 := by rw [hnn]; linarith
    have hp : (0 : ℚ) < nn + 1 := by rw [hnn]; linarith
    exact ne_of_gt (div_pos (mul_pos (mul_pos h1 hg) hp) (by norm_num))
  rw [if_neg (by rw [hden]; exact hdne)]
  have hnum : q * (nn * (nn - 1) / 2) -
      nn * (nn * (nn - 1) / 2 / nn) * (nn * q / nn) = 0 := by
    field_simp
    ring
  have hmean : nn * q / nn = q := by field_simp
  rw [hnum, zero_div, hmean]
  have hint : q - 0 * (nn * (nn - 1) / 2 / nn) = q := by ring
  rw [hint, ssGo_replicate q n 0 0 0]
  norm_num

/-- C6: a series of length at least 2 whose values are all finite and
identical yields slope 0 and R² 1. -/
theorem linreg_constant_series (values : List FVal) (q : ℚ)
    (h2 : 2 ≤ values.length)
    (hall : ∀ v ∈ values, v = FVal.finite q) :
    LinearRegression values = (0, 1) := by
  have hrep : values = List.replicate values.length (FVal.finite q) :=
    List.eq_replicate_iff.mpr ⟨rfl, hall⟩
  have hany : ¬(values.any (fun v => !(FVal.isFinite v)) = true) := by
    intro hx
    rcases List.any_eq_true.mp hx with ⟨v, hv, hb⟩
    rw [hall v hv] at hb
    simp [FVal.isFinite] at hb
  unfold LinearRegression
  rw [if_neg (by omega : ¬values.length < 2), if_neg hany, hrep,
    List.map_replicate]
  exact linRegCore_replicate values.length q h2

/-- C6 witness: the constant series `[5, 5, 5]`. -/
theorem linreg_constant_series_witness :
    LinearRegression
      [FVal.finite 5, FVal.finite 5, FVal.finite 5] = (0, 1) :=
  linreg_constant_series _ 5 (by decide) (by decide)

/-! ### Profile-type detection (`pkg/analyzer/grouping.go`) -/

/-- Model of `profile.ValueType` (sample-type descriptor). -/
structure PValueType where
  type : String
  unit : String
deriving DecidableEq, Repr

/-- Model of the fields of `profile.Sample` consulted by the embedded
operations. -/
structure PSample where
  value : List Int
  location : List PprofLocation
deriving DecidableEq, Repr

/-- Model of the fields of `profile.Profile` consulted by
`detectProfileType` and its callers. -/
structure PProfile where
  sampleType : List PValueType
  sample : List PSample
  durationNanos : Int
  timeNanos : Int
deriving DecidableEq, Repr

/-- Model of the loop body of `detectProfileType` for one `SampleType`
entry: the first matching branch decides, `none` means fall through to the
next entry.  `strings.ToLower` is modelled by ASCII lowering; the claims
proved about this function depend only on the equality tests applied to
the lowered strings.  Note the `mutex` branch requires
`typeLower == "contentions"`, which the earlier `block` branch already
matches. -/
def classifySampleTypeEntry (st : PValueType) : Option String :=
  let typeLower := toLowerString st.type
  let unitLower := toLowerString st.unit
  if (typeLower = "cpu" ∨ typeLower = "samples") ∧
     (unitLower = "nanoseconds" ∨ unitLower = "count") then some "cpu"
  else if typeLower = "alloc_objects" ∨ typeLower = "alloc_space" ∨
          typeLower = "inuse_objects" ∨ typeLower = "inuse_space" then
    some "heap"
  else if typeLower = "goroutine" ∨ unitLower = "goroutine" then
    some "goroutine"
  else if typeLower = "contentions" ∨ typeLower = "delay" then some "block"
  else if typeLower = "contentions" ∧ unitLower = "count" then some "mutex"
  else none

/-- Model of `detectProfileType`: scan the sample types in order and take
the first match; otherwise a positive duration means `cpu`; otherwise
`unknown` (a nil profile is also `unknown`). -/
def detectProfileType (p : Option PProfile) : String :=
  match p with
  | none => "unknown"
  | some p =>
    match p.sampleType.findSome? classifySampleTypeEntry with
    | some t => t
    | none => if p.durationNanos > 0 then "cpu" else "unknown"

/-! ### Claim C10 -/

/-- Helper: no single sample-type entry can classify as `mutex`, because
the `block` branch (`contentions` or `delay`) fires first on every entry
whose type is `contentions`. -/
theorem classifySampleTypeEntry_ne_mutex (st : PValueType) :
    classifySampleTypeEntry st ≠ some "mutex" := by
  unfold classifySampleTypeEntry
  dsimp only
  split
  · simp
  · split
    · simp
    · split
      · simp
      · split
        · simp
        · split
          · rename_i hblock hmutex
            exact absurd (Or.inl hmutex.1) hblock
          · simp

/-- C10: `detectProfileType` never returns `"mutex"`: the mutex branch is
unreachable, so profiles with `contentions` sample types are grouped as
`block` and a mutex group is never produced. -/
theorem detectProfileType_never_mutex (p : Option PProfile) :
    detectProfileType p ≠ "mutex" := by
  cases p with
  | none => show ("unknown" : String) ≠ "mutex"; decide
  | some q =>
    show (match q.sampleType.findSome? classifySampleTypeEntry with
      | some t => t
      | none => if q.durationNanos > 0 then "cpu" else "unknown") ≠ "mutex"
    cases hf : q.sampleType.findSome? classifySampleTypeEntry with
    | none =>
      dsimp only
      split
      · decide
      · decide
    | some t =>
      dsimp only
      intro ht
      subst ht
      rcases List.exists_of_findSome?_eq_some hf with ⟨st, _, hst⟩
      exact classifySampleTypeEntry_ne_mutex st hst

/-! ### Heap insights (`analyzer.AnalyzeHeapInsights`) -/

/-- Model of `analyzer.HeapInsight`.  The `Description` field is a
`fmt.Sprintf`-formatted string that none of the claims consult; only the
level and title are represented. -/
structure HeapInsight where
  level : String
  title : String
deriving DecidableEq, Repr

/-- Model of the `stdLibs` list inside the reporter-side `isStdLib`. -/
def stdLibsHeap : List String :=
  ["encoding/json", "encoding/xml", "encoding/", "database/sql",
   "net/http", "net/", "io/", "bufio", "bytes", "strings", "fmt", "log",
   "sync", "time", "crypto/", "hash/"]

/-- Model of the reporter-side `isStdLib` (standard library or common
third-party function-name patterns). -/
def isStdLib (funcName : String) : Bool :=
  stdLibsHeap.any (fun lib => containsString funcName lib) ||
  containsString funcName "github.com/" ||
  containsString funcName "google.golang.org/" ||
  containsString funcName "go.uber.org/" ||
  containsString funcName "gopkg.in/"

/-- Model of block 1 of `AnalyzeHeapInsights` (GC reclaim rate):
`rate = (AllocSpace − InuseSpace)/AllocSpace × 100`; `rate < 50` is
critical, otherwise `rate < 80` is a warning, otherwise nothing. -/
def gcRateInsights (m : ProfileMetrics) : List HeapInsight :=
  if m.allocSpace > 0 then
    let gcRate : ℚ :=
      ((m.allocSpace - m.inuseSpace : Int) : ℚ) / (m.allocSpace : ℚ) * 100
    if gcRate < 50 then
      [{ level := "critical", title := "⚠️  GC 回收率过低" }]
    else if gcRate < 80 then
      [{ level := "warning", title := "💡 GC 回收率偏低" }]
    else []
  else []

/-- Model of block 2 of `AnalyzeHeapInsights` (current in-use memory above
1 GB). -/
def inuseInsights (m : ProfileMetrics) : List HeapInsight :=
  if (m.inuseSpace : ℚ) / 1024 / 1024 > 1024 then
    [{ level := "warning", title := "📊 当前内存使用较高" }]
  else []

/-- Model of block 3 of `AnalyzeHeapInsights` (cumulative allocation above
10 GB with a ranked top allocator). -/
def allocInsights (m : ProfileMetrics) : List HeapInsight :=
  match m.topAllocFunctions with
  | [] => []
  | _ :: _ =>
    if (m.allocSpace : ℚ) / 1024 / 1024 / 1024 > 10 then
      [{ level := "warning", title := "� 高频内存分配" }]
    else []

/-- Model of block 4 of `AnalyzeHeapInsights` (top in-use function outside
runtime/stdlib/third-party with more than 10% flat share). -/
def topFuncInsights (m : ProfileMetrics) : List HeapInsight :=
  match m.topFunctions with
  | [] => []
  | topFunc :: _ =>
    if !(containsString topFunc.name "runtime.") &&
       !(containsString topFunc.name "runtime/") &&
       !(isStdLib topFunc.name) &&
       decide (topFunc.flatPct > 10) then
      [{ level := "info", title := "🎯 主要内存占用点" }]
    else []

/-- Model of `analyzer.AnalyzeHeapInsights`: the four numbered blocks of
the source appended in order (nil metrics yields no insights). -/
def AnalyzeHeapInsights (metrics : Option ProfileMetrics) :
    List HeapInsight :=
  match metrics with
  | none => []
  | some m =>
    gcRateInsights m ++ inuseInsights m ++ allocInsights m ++
      topFuncInsights m

/-! ### Claim C3 -/

/-- Whether an insight is one of the two GC-reclaim-rate insights. -/
def isGCReclaimInsight (i : HeapInsight) : Bool :=
  i.title = "⚠️  GC 回收率过低" ∨ i.title = "💡 GC 回收率偏低"

/-- Helper: block 2 never emits a GC-reclaim insight. -/
theorem inuseInsights_no_gc (m : ProfileMetrics) :
    (inuseInsights m).filter isGCReclaimInsight = [] := by
  unfold inuseInsights
  split
  · decide
  · rfl

/-- Helper: block 3 never emits a GC-reclaim insight. -/
theorem allocInsights_no_gc (m : ProfileMetrics) :
    (allocInsights m).filter isGCReclaimInsight = [] := by
  unfold allocInsights
  split
  · rfl
  · split
    · decide
    · rfl

/-- Helper: block 4 never emits a GC-reclaim insight. -/
theorem topFuncInsights_no_gc (m : ProfileMetrics) :
    (topFuncInsights m).filter isGCReclaimInsight = [] := by
  unfold topFuncInsights
  split
  · rfl
  · split
    · decide
    · rfl

/-- Helper: block 1 emits only GC-reclaim insights. -/
theorem gcRateInsights_filter (m : ProfileMetrics) :
    (gcRateInsights m).filter isGCReclaimInsight = gcRateInsights m := by
  unfold gcRateInsights
  dsimp only
  split
  · split
    · decide
    · split
      · decide
      · rfl
  · rfl

/-- Helper: the GC-reclaim insights of the full analysis are exactly those
of block 1. -/
theorem analyze_filter_gc (m : ProfileMetrics) :
    (AnalyzeHeapInsights (some m)).filter isGCReclaimInsight =
      gcRateInsights m := by
  show (gcRateInsights m ++ inuseInsights m ++ allocInsights m ++
    topFuncInsights m).filter isGCReclaimInsight = _
  rw [List.filter_append, List.filter_append, List.filter_append,
    inuseInsights_no_gc, allocInsights_no_gc, topFuncInsights_no_gc,
    gcRateInsights_filter]
  simp

/-- C3 (amended): for a heap `ProfileMetrics` with `AllocSpace` 10 MB and
`InuseSpace` 2 MB the GC reclaim rate is exactly 80%, so no
GC-reclaim-rate insight is emitted at all (the warning branch requires
rate < 80); with `InuseSpace` 8 MB the rate is 20% and a critical-level
GC-reclaim-rate insight is emitted. -/
theorem heap_insights_gc_80_and_20 (m m' : ProfileMetrics)
    (ha : m.allocSpace = 10485760) (hi : m.inuseSpace = 2097152)
    (ha' : m'.allocSpace = 10485760) (hi' : m'.inuseSpace = 8388608) :
    (AnalyzeHeapInsights (some m)).filter isGCReclaimInsight = [] ∧
    (AnalyzeHeapInsights (some m')).filter isGCReclaimInsight =
      [{ level := "critical", title := "⚠️  GC 回收率过低" }] := by
  constructor
  · rw [analyze_filter_gc]
    unfold gcRateInsights
    rw [ha, hi]
    norm_num
  · rw [analyze_filter_gc]
    unfold gcRateInsights
    rw [ha', hi']
    norm_num

/-- Concrete heap metrics with AllocSpace 10 MB, InuseSpace 2 MB. -/
def heapMetrics10to2 : ProfileMetrics :=
  { totalSamples := 0, totalValue := 0, allocObjects := 0
    allocSpace := 10485760, inuseObjects := 0, inuseSpace := 2097152
    goroutineCount := 0, topFunctions := [], topAllocFunctions := [] }

/-- Concrete heap metrics with AllocSpace 10 MB, InuseSpace 8 MB. -/
def heapMetrics10to8 : ProfileMetrics :=
  { totalSamples := 0, totalValue := 0, allocObjects := 0
    allocSpace := 10485760, inuseObjects := 0, inuseSpace := 8388608
    goroutineCount := 0, topFunctions := [], topAllocFunctions := [] }

/-- C3 (amended) witness: the two concrete metric records. -/
theorem heap_insights_gc_80_and_20_witness :
    (AnalyzeHeapInsights (some heapMetrics10to2)).filter
      isGCReclaimInsight = [] ∧
    (AnalyzeHeapInsights (some heapMetrics10to8)).filter
      isGCReclaimInsight =
      [{ level := "critical", title := "⚠️  GC 回收率过低" }] :=
  heap_insights_gc_80_and_20 heapMetrics10to2 heapMetrics10to8
    rfl rfl rfl rfl

/-- C3 counterexample: at AllocSpace 10 MB and InuseSpace 2 MB (GC reclaim
rate exactly 80%) the analysis emits no insight whatsoever — in
particular no warning-level GC-reclaim-rate insight, contrary to the
claim. -/
theorem heap_insights_rate80_counterexample :
    AnalyzeHeapInsights (some heapMetrics10to2) = [] := by
  show gcRateInsights heapMetrics10to2 ++ inuseInsights heapMetrics10to2 ++
    allocInsights heapMetrics10to2 ++ topFuncInsights heapMetrics10to2 = []
  have h1 : gcRateInsights heapMetrics10to2 = [] := by
    unfold gcRateInsights heapMetrics10to2
    norm_num
  have h2 : inuseInsights heapMetrics10to2 = [] := by
    unfold inuseInsights heapMetrics10to2
    norm_num
  have h3 : allocInsights heapMetrics10to2 = [] := rfl
  have h4 : topFuncInsights heapMetrics10to2 = [] := rfl
  rw [h1, h2, h3, h4]
  rfl

/-! ### Finding deduplication (`pkg/rules/engine.go`) -/

/-- Model of `rules.Finding`.  `Evidence` and `Suggestions` are never
consulted by deduplication and are omitted. -/
structure Finding where
  ruleID : String
  ruleName : String
  severity : String
  title : String
  isCrossAnalysis : Bool
deriving DecidableEq, Repr

/-- Model of `keywordPatterns` (shared by `extractTitleKeyword` and
`extractAllTitleKeywords`).  The source stores these in a Go map whose
iteration order is unspecified; this model fixes the order in which the
source text lists the entries. -/
def keywordPatterns : List (String × List String) :=
  [("memory_leak", ["内存增长", "内存泄漏", "memory leak", "memory growth"]),
   ("goroutine_leak", ["goroutine", "协程泄漏", "协程增长"]),
   ("cpu_hotspot", ["cpu", "热点函数", "cpu hotspot"])]

/-- Whether a lowered title contains any of a keyword's patterns
(lowered), by substring search. -/
def titleMatchesPatterns (titleLower : String) (pats : List String) :
    Bool :=
  pats.any (fun pat => containsString titleLower (toLowerString pat))

/-- Model of `extractTitleKeyword`: the first keyword (in the fixed order)
one of whose patterns occurs in the lowered title, or `""`. -/
def extractTitleKeyword (title : String) : String :=
  match keywordPatterns.find?
      (fun kp => titleMatchesPatterns (toLowerString title) kp.2) with
  | some kp => kp.1
  | none => ""

/-- Model of `extractAllTitleKeywords`: every keyword one of whose
patterns occurs in the lowered title. -/
def extractAllTitleKeywords (title : String) : List String :=
  (keywordPatterns.filter
    (fun kp => titleMatchesPatterns (toLowerString title) kp.2)).map
    (fun kp => kp.1)

/-- Model of the deduplication key `RuleID + ":" + Title`. -/
def findingKey (f : Finding) : String := f.ruleID ++ ":" ++ f.title

/-- Model of the first loop of `deduplicateFindings` (cross-analysis
findings): key-deduplicate, record every keyword of each kept finding,
and append kept findings in order.  Returns the final
`(seen, seenTitleKeywords, result)` state. -/
def dedupCrossGo (seen seenKw : List String) (result : List Finding) :
    List Finding → List String × List String × List Finding
  | [] => (seen, seenKw, result)
  | f :: fs =>
    if findingKey f ∈ seen then dedupCrossGo seen seenKw result fs
    else
      dedupCrossGo (findingKey f :: seen)
        (extractAllTitleKeywords f.title ++ seenKw) (result ++ [f]) fs

/-- Model of the second loop of `deduplicateFindings` (single-type
findings): skip findings whose key was seen or whose extracted keyword is
non-empty and already covered; otherwise keep the finding and record its
key and keyword. -/
def dedupSinglesGo (seen seenKw : List String) (result : List Finding) :
    List Finding → List Finding
  | [] => result
  | f :: fs =>
    if findingKey f ∈ seen then dedupSinglesGo seen seenKw result fs
    else if extractTitleKeyword f.title ≠ "" ∧
            extractTitleKeyword f.title ∈ seenKw then
      dedupSinglesGo seen seenKw result fs
    else
      dedupSinglesGo (findingKey f :: seen)
        (if extractTitleKeyword f.title ≠ "" then
           extractTitleKeyword f.title :: seenKw
         else seenKw) (result ++ [f]) fs

/-- Model of `Engine.deduplicateFindings`: lists of length at most one are
returned unchanged; otherwise cross-analysis findings are processed first
and single-type findings afterwards against the accumulated state. -/
def deduplicateFindings (findings : List Finding) : List Finding :=
  if findings.length ≤ 1 then findings
  else
    let cross := findings.filter (fun f => f.isCrossAnalysis)
    let singles := findings.filter (fun f => !f.isCrossAnalysis)
    let st := dedupCrossGo [] [] [] cross
    dedupSinglesGo st.1 st.2.1 st.2.2 singles

/-! ### Claim C2 -/

/-- Cross-analysis finding used in the C2 counterexample: its title
carries the `goroutine_leak` keyword domain. -/
def crossGoroutineFinding : Finding :=
  { ruleID := "cross_rule", ruleName := "cross goroutine and memory"
    severity := "high", title := "goroutine leak detected"
    isCrossAnalysis := true }

/-- Single-type finding used in the C2 counterexample: its title carries
both the `memory_leak` and the `goroutine_leak` keyword domains. -/
def singleMixedFinding : Finding :=
  { ruleID := "single_rule", ruleName := "single goroutine"
    severity := "high", title := "memory leak in goroutine"
    isCrossAnalysis := false }

/-- C2 counterexample: the cross finding covers `goroutine_leak` and the
single finding's title carries the same keyword, yet the single finding
survives deduplication, because `extractTitleKeyword` reduces its title to
`memory_leak` (its first matching domain) which no cross finding covers. -/
theorem dedup_keyword_counterexample :
    deduplicateFindings [crossGoroutineFinding, singleMixedFinding] =
      [crossGoroutineFinding, singleMixedFinding] ∧
    crossGoroutineFinding.isCrossAnalysis = true ∧
    singleMixedFinding.isCrossAnalysis = false ∧
    "goroutine_leak" ∈ extractAllTitleKeywords crossGoroutineFinding.title ∧
    "goroutine_leak" ∈ extractAllTitleKeywords singleMixedFinding.title := by
  refine ⟨?_, rfl, rfl, ?_, ?_⟩
  · decide
  · decide
  · decide

/-- Helper: the cross loop only ever adds keywords. -/
theorem dedupCrossGo_kw_mono (l : List Finding) :
    ∀ (seen kw : List String) (res : List Finding) (x : String),
      x ∈ kw → x ∈ (dedupCrossGo seen kw res l).2.1 := by
  induction l with
  | nil => intro seen kw res x hx; exact hx
  | cons f fs ih =>
    intro seen kw res x hx
    simp only [dedupCrossGo]
    split
    · exact ih seen kw res x hx
    · exact ih _ _ _ x (List.mem_append_right _ hx)

/-- Helper: every finding kept by the cross loop has all of its title
keywords recorded in the final keyword state. -/
theorem dedupCrossGo_mem_kw (l : List Finding) :
    ∀ (seen kw : List String) (res : List Finding) (f : Finding),
      f ∈ (dedupCrossGo seen kw res l).2.2 →
      f ∈ res ∨ ∀ k ∈ extractAllTitleKeywords f.title,
        k ∈ (dedupCrossGo seen kw res l).2.1 := by
  induction l with
  | nil => intro seen kw res f hf; exact Or.inl hf
  | cons g gs ih =>
    intro seen kw res f hf
    simp only [dedupCrossGo] at hf ⊢
    split at hf
    · split
      · exact ih seen kw res f hf
      · rename_i h1 h2
        exact absurd h1 h2
    · split
      · rename_i h1 h2
        exact absurd h2 h1
      · rcases ih _ _ _ f hf with hin | hkw
        · rcases List.mem_append.mp hin with hin | hin
          · exact Or.inl hin
          · refine Or.inr (fun k hk => ?_)
            have hfeq : f = g := List.mem_singleton.mp hin
            subst hfeq
            exact dedupCrossGo_kw_mono gs _ _ _ k
              (List.mem_append_left _ hk)
        · exact Or.inr hkw

/-- Helper: every finding in the cross loop's output was already kept or
comes from the input list. -/
theorem dedupCrossGo_from (l : List Finding) :
    ∀ (seen kw : List String) (res : List Finding) (f : Finding),
      f ∈ (dedupCrossGo seen kw res l).2.2 → f ∈ res ∨ f ∈ l := by
  induction l with
  | nil => intro seen kw res f hf; exact Or.inl hf
  | cons g gs ih =>
    intro seen kw res f hf
    simp only [dedupCrossGo] at hf
    split at hf
    · rcases ih _ _ _ f hf with h | h
      · exact Or.inl h
      · exact Or.inr (List.mem_cons_of_mem g h)
    · rcases ih _ _ _ f hf with h | h
      · rcases List.mem_append.mp h with h | h
        · exact Or.inl h
        · exact Or.inr (by rw [List.mem_singleton.mp h]; exact
            List.mem_cons_self g gs)
      · exact Or.inr (List.mem_cons_of_mem g h)

/-- Helper: every finding kept by the singles loop was already kept, or
its extracted keyword is empty or avoids every keyword recorded before the
loop started. -/
theorem dedupSinglesGo_mem_kw (l : List Finding) :
    ∀ (seen skw : List String) (res : List Finding) (kw0 : List String),
      (∀ x ∈ kw0, x ∈ skw) →
      ∀ f ∈ dedupSinglesGo seen skw res l,
        f ∈ res ∨ extractTitleKeyword f.title = "" ∨
          extractTitleKeyword f.title ∉ kw0 := by
  induction l with
  | nil => intro seen skw res kw0 _ f hf; exact Or.inl hf
  | cons g gs ih =>
    intro seen skw res kw0 hsub f hf
    simp only [dedupSinglesGo] at hf
    split at hf
    · exact ih _ _ _ kw0 hsub f hf
    · split at hf
      · exact ih _ _ _ kw0 hsub f hf
      · rename_i hkcond
        have hsub' : ∀ x ∈ kw0,
            x ∈ (if extractTitleKeyword g.title ≠ "" then
              extractTitleKeyword g.title :: skw else skw) := by
          intro x hx
          split
          · exact List.mem_cons_of_mem _ (hsub x hx)
          · exact hsub x hx
        rcases ih _ _ _ kw0 hsub' f hf with hin | hrest
        · rcases List.mem_append.mp hin with hin | hin
          · exact Or.inl hin
          · have hfeq : f = g := List.mem_singleton.mp hin
            subst hfeq
            by_cases hk : extractTitleKeyword f.title = ""
            · exact Or.inr (Or.inl hk)
            · refine Or.inr (Or.inr (fun hk0 => ?_))
              exact hkcond ⟨hk, hsub _ hk0⟩
        · exact Or.inr hrest

/-- Helper: every finding in the singles loop's output was already kept or
comes from the input list. -/
theorem dedupSinglesGo_from (l : List Finding) :
    ∀ (seen skw : List String) (res : List Finding) (f : Finding),
      f ∈ dedupSinglesGo seen skw res l → f ∈ res ∨ f ∈ l := by
  induction l with
  | nil => intro seen skw res f hf; exact Or.inl hf
  | cons g gs ih =>
    intro seen skw res f hf
    simp only [dedupSinglesGo] at hf
    split at hf
    · rcases ih _ _ _ f hf with h | h
      · exact Or.inl h
      · exact Or.inr (List.mem_cons_of_mem g h)
    · split at hf
      · rcases ih _ _ _ f hf with h | h
        · exact Or.inl h
        · exact Or.inr (List.mem_cons_of_mem g h)
      · rcases ih _ _ _ f hf with h | h
        · rcases List.mem_append.mp h with h | h
          · exact Or.inl h
          · exact Or.inr (by rw [List.mem_singleton.mp h]; exact
              List.mem_cons_self g gs)
        · exact Or.inr (List.mem_cons_of_mem g h)

/-- Helper: the cross loop keeps its result keyed into `seen` and free of
key duplicates. -/
theorem dedupCrossGo_nodup (l : List Finding) :
    ∀ (seen kw : List String) (res : List Finding),
      (∀ f ∈ res, findingKey f ∈ seen) →
      (res.map findingKey).Nodup →
      (∀ f ∈ (dedupCrossGo seen kw res l).2.2,
          findingKey f ∈ (dedupCrossGo seen kw res l).1) ∧
      ((dedupCrossGo seen kw res l).2.2.map findingKey).Nodup := by
  induction l with
  | nil =>
    intro seen kw res hseen hnd
    exact ⟨hseen, hnd⟩
  | cons g gs ih =>
    intro seen kw res hseen hnd
    simp only [dedupCrossGo]
    split
    · exact ih seen kw res hseen hnd
    · rename_i hnot
      apply ih
      · intro f hf
        rcases List.mem_append.mp hf with h | h
        · exact List.mem_cons_of_mem _ (hseen f h)
        · rw [List.mem_singleton.mp h]
          exact List.mem_cons_self _ _
      · rw [List.map_append]
        refine List.Nodup.append hnd (by simp) ?_
        intro a ha hb
        have hab : a = findingKey g := by simpa using hb
        subst hab
        rcases List.mem_map.mp ha with ⟨f, hf, hkey⟩
        exact hnot (hkey ▸ hseen f hf)

/-- Helper: the singles loop preserves key-uniqueness of the result. -/
theorem dedupSinglesGo_nodup (l : List Finding) :
    ∀ (seen skw : List String) (res : List Finding),
      (∀ f ∈ res, findingKey f ∈ seen) →
      (res.map findingKey).Nodup →
      ((dedupSinglesGo seen skw res l).map findingKey).Nodup := by
  induction l with
  | nil => intro seen skw res _ hnd; exact hnd
  | cons g gs ih =>
    intro seen skw res hseen hnd
    simp only [dedupSinglesGo]
    split
    · exact ih seen skw res hseen hnd
    · split
      · exact ih seen skw res hseen hnd
      · rename_i hnot _
        apply ih
        · intro f hf
          rcases List.mem_append.mp hf with h | h
          · exact List.mem_cons_of_mem _ (hseen f h)
          · rw [List.mem_singleton.mp h]
            exact List.mem_cons_self _ _
        · rw [List.map_append]
          refine List.Nodup.append hnd (by simp) ?_
          intro a ha hb
          have hab : a = findingKey g := by simpa using hb
          subst hab
          rcases List.mem_map.mp ha with ⟨f, hf, hkey⟩
          exact hnot (hkey ▸ hseen f hf)

/-- C2 (amended): in the deduplicated findings list, no surviving
single-type finding has a non-empty extracted keyword (its first matching
domain, per `extractTitleKeyword`) among the keyword domains of any
surviving cross-analysis finding's title; and no two findings with
identical `(RuleID, Title)` both appear.  (Single findings whose titles
match several keyword domains are suppressed only through their first
matching domain — see the counterexample.) -/
theorem dedup_policy (findings : List Finding) :
    (∀ c ∈ deduplicateFindings findings,
      ∀ s ∈ deduplicateFindings findings,
        c.isCrossAnalysis = true → s.isCrossAnalysis = false →
        extractTitleKeyword s.title = "" ∨
        extractTitleKeyword s.title ∉ extractAllTitleKeywords c.title) ∧
    (deduplicateFindings findings).Pairwise
      (fun a b => a.ruleID ≠ b.ruleID ∨ a.title ≠ b.title) := by
  unfold deduplicateFindings
  by_cases hlen : findings.length ≤ 1
  · rw [if_pos hlen]
    cases findings with
    | nil => exact ⟨by intro c hc; simp at hc, by simp⟩
    | cons a t =>
      cases t with
      | nil =>
        constructor
        · intro c hc s hs hcc hsc
          have hc' : c = a := by simpa using hc
          have hs' : s = a := by simpa using hs
          rw [hc'] at hcc
          rw [hs'] at hsc
          rw [hcc] at hsc
          exact absurd hsc (by decide)
        · simp
      | cons b t2 => simp at hlen
  · rw [if_neg hlen]
    dsimp only
    set cr := findings.filter (fun f => f.isCrossAnalysis) with hcr
    set sg := findings.filter (fun f => !f.isCrossAnalysis) with hsg
    set st := dedupCrossGo [] [] [] cr with hst
    constructor
    · intro c hc s hs hcc hsc
      have hcmem : c ∈ st.2.2 := by
        rcases dedupSinglesGo_from sg st.1 st.2.1 st.2.2 c hc with h | h
        · exact h
        · exfalso
          have hmf := (List.mem_filter.mp (hsg ▸ h)).2
          rw [hcc] at hmf
          simp at hmf
      have hckw : ∀ k ∈ extractAllTitleKeywords c.title, k ∈ st.2.1 := by
        have h0 := dedupCrossGo_mem_kw cr [] [] [] c
        rw [← hst] at h0
        rcases h0 hcmem with h | h
        · simp at h
        · exact h
      have hsnotin : s ∉ st.2.2 := by
        intro hmem
        have h0 := dedupCrossGo_from cr [] [] [] s
        rw [← hst] at h0
        rcases h0 hmem with h | h
        · simp at h
        · have hmf := (List.mem_filter.mp (hcr ▸ h)).2
          rw [hsc] at hmf
          simp at hmf
      rcases dedupSinglesGo_mem_kw sg st.1 st.2.1 st.2.2 st.2.1
          (fun x hx => hx) s hs with h | h | h
      · exact absurd h hsnotin
      · exact Or.inl h
      · exact Or.inr (fun hk => h (hckw _ hk))
    · have h0 := dedupCrossGo_nodup cr [] [] []
        (by intro f hf; simp at hf) (by simp)
      rw [← hst] at h0
      have h1 := dedupSinglesGo_nodup sg st.1 st.2.1 st.2.2 h0.1 h0.2
      have h2 : (dedupSinglesGo st.1 st.2.1 st.2.2 sg).Pairwise
          (fun a b => findingKey a ≠ findingKey b) :=
        List.pairwise_map.mp h1
      refine h2.imp ?_
      intro a b hk
      by_contra hcon
      push_neg at hcon
      exact hk (by rw [findingKey, findingKey, hcon.1, hcon.2])

/-- C2 (amended) witness: applying the policy to the concrete two-element
list of the counterexample, where both findings survive, shows the
surviving single's extracted keyword is not covered by the cross
finding. -/
theorem dedup_policy_witness :
    extractTitleKeyword singleMixedFinding.title = "" ∨
    extractTitleKeyword singleMixedFinding.title ∉
      extractAllTitleKeywords crossGoroutineFinding.title :=
  (dedup_policy [crossGoroutineFinding, singleMixedFinding]).1
    crossGoroutineFinding (by decide) singleMixedFinding (by decide)
    rfl rfl
